import Mathlib

/-!
Verification of the scroll rollup control plane: the coordinator's batch
prover-task dispatcher (`coordinator/internal/logic/provertask/batch_prover_task.go`)
and the L2 commitment relayer (`bridge/l2/relayer_commit.go`), shallowly
embedded as pure Lean functions over explicit store states.
-/

namespace Scroll

/-! ## Shared primitive types -/

/-- Geth block header, restricted to the fields this code reads
(`BaseFee`, `Number`, `Time`); `rest` stands for the remaining header
content that feeds the computed header hash. -/
structure BlockHeader where
  baseFee : Int
  number : Nat
  time : Nat
  rest : Nat
deriving DecidableEq, Repr

/-- A 32-byte hash value. `hex` is the image of `common.HexToHash`;
`keccakHeader` is the image of geth's `Header.Hash()` (an external keccak
computation, modelled as an injective constructor). -/
inductive Hash
  | hex (s : String)
  | keccakHeader (h : BlockHeader)
deriving DecidableEq, Repr

/-- The external `common.HexToHash`. -/
def hexToHash (s : String) : Hash := .hex s

/-- The external geth `Header.Hash()`. -/
def headerHash (h : BlockHeader) : Hash := .keccakHeader h

/-- A byte string; `common.Hex2Bytes` is modelled as the injective wrapper
of its hex-string argument. -/
structure Bytes where
  hexRepr : String
deriving DecidableEq, Repr

/-- The external `common.Hex2Bytes`. -/
def hex2Bytes (s : String) : Bytes := ⟨s⟩

/-! ## Coordinator data model (`coordinator/internal/orm`, `common/types`) -/

/-- `types.ProvingStatus` of a batch row. -/
inductive ProvingStatus
  | unassigned
  | assigned
  | proved
  | verified
  | failed
deriving DecidableEq, Repr

/-- `types.ProverProveStatus` of a prover-task row. -/
inductive ProverStatus
  | assigned
  | proofValid
  | proofInvalid
deriving DecidableEq, Repr

/-- `message.ProofType`. -/
inductive TaskType
  | chunk
  | batch
deriving DecidableEq, Repr

/-- Numeric value of `message.ProofType` (`1 = chunk`, `2 = batch`). -/
def TaskType.toInt : TaskType → Nat
  | .chunk => 1
  | .batch => 2

/-- A batch row as read by the dispatcher: identifier, sequence index and
proving status. -/
structure CoBatch where
  hash : String
  index : Nat
  provingStatus : ProvingStatus
deriving DecidableEq, Repr

/-- An aggregated chunk proof (`message.ChunkProof`); its internal layout is
irrelevant here, only its identity matters. -/
structure ChunkProof where
  proofBytes : Nat
deriving DecidableEq, Repr

/-- A stored proof blob: either the serialization of a `ChunkProof` or bytes
that fail to deserialize. -/
inductive ProofBlob
  | wellFormed (p : ChunkProof)
  | malformed
deriving DecidableEq, Repr

/-- The external `json.Unmarshal` of a stored chunk-proof blob. -/
def unmarshalChunkProof : ProofBlob → Option ChunkProof
  | .wellFormed p => some p
  | .malformed => none

/-- A chunk row (`orm.Chunk`), restricted to the fields `formatProverTask`
reads. -/
structure Chunk where
  batchHash : String
  hash : String
  parentChunkStateRoot : String
  stateRoot : String
  withdrawRoot : String
  proof : ProofBlob
deriving DecidableEq, Repr

/-- An assignment audit row (`orm.ProverTask`). -/
structure ProverTask where
  taskID : String
  proverPublicKey : String
  taskType : TaskType
  proverName : String
  provingStatus : ProverStatus
  failureType : Nat
  assignedAt : Nat
deriving DecidableEq, Repr

/-- `message.ChunkInfo` as built by `formatProverTask`. -/
structure ChunkInfo where
  chainID : Nat
  prevStateRoot : Hash
  postStateRoot : Hash
  withdrawRoot : Hash
  dataHash : Hash
  isPadding : Bool
deriving DecidableEq, Repr

/-- `message.BatchTaskDetail`: the structure that is JSON-marshalled into the
payload body. -/
structure BatchTaskDetail where
  chunkInfos : List ChunkInfo
  chunkProofs : List ChunkProof
deriving DecidableEq, Repr

/-- `coordinatorType.ProverTaskSchema`; `proofData` is kept structurally (the
JSON marshalling of `BatchTaskDetail` is an external, injective encoder). -/
structure ProverTaskSchema where
  taskID : String
  proofType : Nat
  proofData : BatchTaskDetail
deriving DecidableEq, Repr

/-- Coordinator configuration: the L2 chain id and the attempt bound consulted
by the attempt guard. -/
structure CoordinatorConfig where
  chainID : Nat
  maxAttempts : Nat
deriving DecidableEq, Repr

/-- The coordinator's persistent store: batch rows, chunk rows and
prover-task rows, plus fault flags that make a given store operation fail
(modelling store-level errors such as a lost connection). -/
structure CoordinatorDB where
  batches : List CoBatch
  chunks : List Chunk
  proverTasks : List ProverTask
  failGetUnassignedBatches : Bool
  failUpdateProvingStatus : Bool
  failSetProverTask : Bool
  failGetChunks : Bool
deriving DecidableEq, Repr

/-! ## Coordinator store operations -/

/-- Modelled from the spec: `orm.Batch.GetUnassignedBatches` is not under
`src/`; per spec §4.1 it returns at most `limit` rows with status
*Unassigned*, oldest first. `none` is a store error. -/
def getUnassignedBatches (db : CoordinatorDB) (limit : Nat) :
    Option (List CoBatch) :=
  if db.failGetUnassignedBatches then none
  else some ((db.batches.filter (fun b => b.provingStatus = .unassigned)).take limit)

/-- Conditional status write on the batch table: every row whose hash matches
and whose current status equals `expected` is moved to `target` (the
`WHERE status = <expected>` guard of spec §4.4/§9; a racing duplicate update
affects zero rows and is not an error). -/
def setStatusWhere (bs : List CoBatch) (h : String)
    (expected target : ProvingStatus) : List CoBatch :=
  bs.map (fun b =>
    if b.hash = h ∧ b.provingStatus = expected then
      { b with provingStatus := target }
    else b)

/-- Modelled from the spec: `orm.Batch.UpdateProvingStatus` is not under
`src/`; per spec §4.4/§9 it is a conditional update guarded by the expected
current status. `none` is a store error. -/
def updateProvingStatus (db : CoordinatorDB) (h : String)
    (expected target : ProvingStatus) : Option CoordinatorDB :=
  if db.failUpdateProvingStatus then none
  else some { db with batches := setStatusWhere db.batches h expected target }

/-- Modelled from the spec: `orm.ProverTask.SetProverTask` is not under
`src/`; it inserts one assignment row. `none` is a store error. -/
def setProverTask (db : CoordinatorDB) (t : ProverTask) :
    Option CoordinatorDB :=
  if db.failSetProverTask then none
  else some { db with proverTasks := db.proverTasks ++ [t] }

/-- Modelled from the spec: `orm.Chunk.GetChunksByBatchHash` is not under
`src/`; it returns the chunk rows of the batch in their canonical stored
order. `none` is a store error. -/
def getChunksByBatchHash (db : CoordinatorDB) (h : String) :
    Option (List Chunk) :=
  if db.failGetChunks then none
  else some (db.chunks.filter (fun c => c.batchHash = h))

/-- Number of non-successful assignment attempts recorded for a unit
(spec §4.2: prover-task rows whose status is not a terminal success). -/
def attemptCount (db : CoordinatorDB) (id : String) (t : TaskType) : Nat :=
  (db.proverTasks.filter
    (fun pt => pt.taskID = id ∧ pt.taskType = t ∧ pt.provingStatus ≠ .proofValid)).length

/-- Modelled from the spec: `BaseCollector.checkAttemptsExceeded` is not
under `src/`; per spec §4.2 it counts non-successful attempts against the
configured maximum and, when the maximum is reached, moves the unit to the
terminal *Failed* status atomically with the check and reports `false`
(no longer eligible). -/
def checkAttemptsExceeded (cfg : CoordinatorConfig) (db : CoordinatorDB)
    (id : String) (t : TaskType) : CoordinatorDB × Bool :=
  if cfg.maxAttempts ≤ attemptCount db id t then
    ({ db with batches := setStatusWhere db.batches id .unassigned .failed }, false)
  else (db, true)

/-! ## Collect -/

/-- Errors surfaced by `formatProverTask`. -/
inductive FormatErr
  | getChunksFailed
  | unmarshalProofFailed (chunkHash : String)
deriving DecidableEq, Repr

/-- Errors surfaced by `Collect`. -/
inductive CollectErr
  | getUnassignedFailed
  | lenNot1
  | attemptsExceeded (id : String)
  | noPublicKey
  | noProverName
  | updateStatusFailed (id : String)
  | setProverTaskFailed (id : String)
  | formatFailed (id : String) (e : FormatErr)
deriving DecidableEq, Repr

/-- The gin request context, restricted to what `Collect` reads: the
caller-supplied identity. -/
structure CollectCtx where
  publicKey : Option String
  proverName : Option String
deriving DecidableEq, Repr

/-- `gorm.DB.Transaction`: run the body on the current store state; on error
the store is rolled back to its state at transaction start. -/
def dbTransaction (db : CoordinatorDB)
    (f : CoordinatorDB → Except CollectErr CoordinatorDB) :
    CoordinatorDB × Option CollectErr :=
  match f db with
  | .ok db' => (db', none)
  | .error e => (db, some e)

/-- The `orm.ProverTask` value built inside `Collect`'s transaction
(`AssignedAt := utils.NowUTC()` is the `now` argument). -/
def mkProverTask (id pk pn : String) (now : Nat) : ProverTask :=
  { taskID := id
    proverPublicKey := pk
    taskType := .batch
    proverName := pn
    provingStatus := .assigned
    failureType := 0
    assignedAt := now }

/-- The `message.ChunkInfo` built for one chunk in `formatProverTask`. -/
def mkChunkInfo (cfg : CoordinatorConfig) (c : Chunk) : ChunkInfo :=
  { chainID := cfg.chainID
    prevStateRoot := hexToHash c.parentChunkStateRoot
    postStateRoot := hexToHash c.stateRoot
    withdrawRoot := hexToHash c.withdrawRoot
    dataHash := hexToHash c.hash
    isPadding := false }

/-- The chunk loop of `formatProverTask`: decode each chunk's proof blob and
build its `ChunkInfo`, failing at the first undecodable blob. -/
def buildChunkData (cfg : CoordinatorConfig) :
    List Chunk → Except FormatErr (List ChunkProof × List ChunkInfo)
  | [] => .ok ([], [])
  | c :: cs =>
    match unmarshalChunkProof c.proof with
    | none => .error (.unmarshalProofFailed c.hash)
    | some p =>
      match buildChunkData cfg cs with
      | .error e => .error e
      | .ok (ps, infos) => .ok (p :: ps, mkChunkInfo cfg c :: infos)

/-- `BatchProverTask.formatProverTask`: read the batch's chunks, decode every
proof blob, and assemble the worker-facing task payload. -/
def formatProverTask (cfg : CoordinatorConfig) (db : CoordinatorDB)
    (taskID : String) : Except FormatErr ProverTaskSchema :=
  match getChunksByBatchHash db taskID with
  | none => .error .getChunksFailed
  | some chunks =>
    match buildChunkData cfg chunks with
    | .error e => .error e
    | .ok (proofs, infos) =>
      .ok { taskID := taskID
            proofType := TaskType.batch.toInt
            proofData := { chunkInfos := infos, chunkProofs := proofs } }

/-- The assignment transaction plus payload formatting: the tail of
`Collect` once a batch has been selected, the attempt guard passed and the
caller identity extracted. -/
def collectAssignAndFormat (cfg : CoordinatorConfig) (now : Nat)
    (db : CoordinatorDB) (b : CoBatch) (pk pn : String) :
    CoordinatorDB × Except CollectErr (Option ProverTaskSchema) :=
  let tres := dbTransaction db (fun tx =>
    match updateProvingStatus tx b.hash .unassigned .assigned with
    | none => .error (.updateStatusFailed b.hash)
    | some tx1 =>
      match setProverTask tx1 (mkProverTask b.hash pk pn now) with
      | none => .error (.setProverTaskFailed b.hash)
      | some tx2 => .ok tx2)
  match tres with
  | (db2, some e) => (db2, .error e)
  | (db2, none) =>
    match formatProverTask cfg db2 b.hash with
    | .error e => (db2, .error (.formatFailed b.hash e))
    | .ok schema => (db2, .ok (some schema))

/-- The body of `Collect` after the store query: length checks, attempt
guard, identity extraction, then the assignment transaction and payload
formatting. -/
def collectWithBatches (cfg : CoordinatorConfig) (ctx : CollectCtx)
    (now : Nat) (db : CoordinatorDB) (batchTasks : List CoBatch) :
    CoordinatorDB × Except CollectErr (Option ProverTaskSchema) :=
  match batchTasks with
  | [] => (db, .ok none)
  | batchTask :: rest =>
    if rest.length ≠ 0 then (db, .error .lenNot1)
    else
      match checkAttemptsExceeded cfg db batchTask.hash .batch with
      | (db1, false) => (db1, .error (.attemptsExceeded batchTask.hash))
      | (db1, true) =>
        match ctx.publicKey with
        | none => (db1, .error .noPublicKey)
        | some pk =>
          match ctx.proverName with
          | none => (db1, .error .noProverName)
          | some pn => collectAssignAndFormat cfg now db1 batchTask pk pn

/-- `BatchProverTask.Collect`: query one unassigned batch and dispatch it. -/
def collect (cfg : CoordinatorConfig) (ctx : CollectCtx) (now : Nat)
    (db : CoordinatorDB) :
    CoordinatorDB × Except CollectErr (Option ProverTaskSchema) :=
  match getUnassignedBatches db 1 with
  | none => (db, .error .getUnassignedFailed)
  | some batchTasks => collectWithBatches cfg ctx now db batchTasks

/-- Proving status of the first batch row with the given hash (the row a
keyed lookup observes). -/
def statusOf (bs : List CoBatch) (h : String) : Option ProvingStatus :=
  (bs.find? (fun b => b.hash = h)).map (fun b => b.provingStatus)

/-! ## Concurrent invocations of Collect

Each `Collect` invocation performs two store interactions that are atomic
individually but not jointly: the read phase (query, attempt guard, identity
extraction) and the write phase (the assignment transaction followed by
payload formatting). Concurrency is modelled as an arbitrary interleaving of
these atomic phases across invocations. -/

deriving instance DecidableEq for Except

/-- Progress of one `Collect` invocation. -/
inductive Phase
  | start
  | selected (b : CoBatch) (pk pn : String)
  | done (r : Except CollectErr (Option ProverTaskSchema))
deriving DecidableEq, Repr

/-- The read phase of `Collect`: everything up to (not including) the
assignment transaction. -/
def collectPhase1 (cfg : CoordinatorConfig) (ctx : CollectCtx)
    (db : CoordinatorDB) : CoordinatorDB × Phase :=
  match getUnassignedBatches db 1 with
  | none => (db, .done (.error .getUnassignedFailed))
  | some [] => (db, .done (.ok none))
  | some (batchTask :: rest) =>
    if rest.length ≠ 0 then (db, .done (.error .lenNot1))
    else
      match checkAttemptsExceeded cfg db batchTask.hash .batch with
      | (db1, false) => (db1, .done (.error (.attemptsExceeded batchTask.hash)))
      | (db1, true) =>
        match ctx.publicKey with
        | none => (db1, .done (.error .noPublicKey))
        | some pk =>
          match ctx.proverName with
          | none => (db1, .done (.error .noProverName))
          | some pn => (db1, .selected batchTask pk pn)

/-- One atomic step of one invocation: run its next pending phase. -/
def stepInvocation (cfg : CoordinatorConfig) (ctx : CollectCtx) (now : Nat)
    (db : CoordinatorDB) : Phase → CoordinatorDB × Phase
  | .start => collectPhase1 cfg ctx db
  | .selected b pk pn =>
    let (db', r) := collectAssignAndFormat cfg now db b pk pn
    (db', .done r)
  | .done r => (db, .done r)

/-- Run a schedule: at each tick the named invocation takes its next atomic
step against the shared store (out-of-range names are skipped). -/
def runSchedule (cfg : CoordinatorConfig) (now : Nat) :
    List Nat → CoordinatorDB → List (CollectCtx × Phase) →
    CoordinatorDB × List (CollectCtx × Phase)
  | [], db, invs => (db, invs)
  | i :: rest, db, invs =>
    match invs[i]? with
    | none => runSchedule cfg now rest db invs
    | some (ctx, p) =>
      let (db', p') := stepInvocation cfg ctx now db p
      runSchedule cfg now rest db' (invs.set i (ctx, p'))

/-- The sequence of shared-store states a schedule passes through. -/
def scheduleTrace (cfg : CoordinatorConfig) (now : Nat) :
    List Nat → CoordinatorDB → List (CollectCtx × Phase) → List CoordinatorDB
  | [], db, _ => [db]
  | i :: rest, db, invs =>
    match invs[i]? with
    | none => db :: scheduleTrace cfg now rest db invs
    | some (ctx, p) =>
      let (db', p') := stepInvocation cfg ctx now db p
      db :: scheduleTrace cfg now rest db' (invs.set i (ctx, p'))

/-- Number of steps of a store trace that move the batch `h` from
*Unassigned* to *Assigned*. -/
def countTransitions (h : String) : List CoordinatorDB → Nat
  | [] => 0
  | [_] => 0
  | d1 :: d2 :: rest =>
    (if statusOf d1.batches h = some .unassigned ∧
        statusOf d2.batches h = some .assigned then 1 else 0)
      + countTransitions h (d2 :: rest)

/-- Adjacent states of a trace never resurrect the *Unassigned* status of
batch `h`. -/
def NoRevive (h : String) : List CoordinatorDB → Prop
  | [] => True
  | [_] => True
  | d1 :: d2 :: rest =>
    (statusOf d1.batches h ≠ some .unassigned →
      statusOf d2.batches h ≠ some .unassigned) ∧ NoRevive h (d2 :: rest)

/-! ## Bridge data model (`database/orm`, `bridge/l2`) -/

/-- `orm.RollupStatus` of a block batch. -/
inductive RollupStatus
  | pending
  | committing
  | committed
  | finalizing
  | finalized
  | finalizationSkipped
deriving DecidableEq, Repr

/-- A `block_batch` row as read by the relayer. -/
structure BlockBatch where
  id : String
  index : Nat
  parentHash : String
  rollupStatus : RollupStatus
  commitTxHash : Option String
deriving DecidableEq, Repr

/-- One transaction of a stored block trace, restricted to the fields
`committedPack` reads. -/
structure RPCTransaction where
  fromAddr : String
  nonce : Nat
  gas : Nat
  gasPrice : Int
  value : Int
  data : String
  r : Int
  s : Int
  v : Int
  toAddr : Option String
deriving DecidableEq, Repr

/-- Per-transaction execution result (`trace.ExecutionResults[j].Gas`). -/
structure ExecutionResult where
  gas : Nat
deriving DecidableEq, Repr

/-- A stored block trace of a batch. -/
structure BlockTrace where
  batchId : String
  header : BlockHeader
  storageTraceRootAfter : Hash
  transactions : List RPCTransaction
  executionResults : List ExecutionResult
deriving DecidableEq, Repr

/-- The bridge's persistent store with fault flags for its read and write
operations. -/
structure BridgeDB where
  blockBatches : List BlockBatch
  blockTraces : List BlockTrace
  failGetBlockBatches : Bool
  failGetBlockTraces : Bool
  failGetPendingBatches : Bool
  failGetBatchesByRollupStatus : Bool
  failUpdateCommitTxHash : Bool
deriving DecidableEq, Repr

/-! ## Ledger-facing calldata structures (`bridge/abi`) -/

/-- `bridge_abi.IZKRollupLayer2Transaction`. -/
structure L2Tx where
  caller : String
  target : String
  nonce : Nat
  gas : Nat
  gasPrice : Int
  value : Int
  data : Bytes
  r : Int
  s : Int
  v : Nat
deriving DecidableEq, Repr

/-- `bridge_abi.IZKRollupLayer2BlockHeader`. -/
structure L2BlockHeader where
  blockHash : Hash
  parentHash : Hash
  baseFee : Int
  stateRoot : Hash
  blockHeight : Nat
  gasUsed : Nat
  timestamp : Nat
  extraData : Bytes
  txs : List L2Tx
deriving DecidableEq, Repr

/-- `bridge_abi.IZKRollupLayer2Batch`. -/
structure L2Batch where
  batchIndex : Nat
  parentHash : Hash
  blocks : List L2BlockHeader
deriving DecidableEq, Repr

/-- ABI-encoded calldata of a `commitBatch` call. The external ABI encoder is
modelled as an injective packaging of the method name and its argument, so
byte-identity of calldata coincides with equality of this structure. -/
structure Calldata where
  method : String
  payload : L2Batch
deriving DecidableEq, Repr

/-- Relayer-side errors. -/
inductive BridgeErr
  | storeError
  | packError
deriving DecidableEq, Repr

/-- The external `bridge_abi.RollupMetaABI.Pack("commitBatch", batch)`. -/
def abiPackCommitBatch (b : L2Batch) : Except BridgeErr Calldata :=
  .ok { method := "commitBatch", payload := b }

/-! ## Bridge store operations -/

/-- Modelled from the spec: `db.GetBlockBatches(map{"id": id})` is not under
`src/`; it returns the block-batch rows matching the filter. `none` is a
store error. -/
def getBlockBatches (db : BridgeDB) (id : String) : Option (List BlockBatch) :=
  if db.failGetBlockBatches then none
  else some (db.blockBatches.filter (fun b => b.id = id))

/-- Insertion of a trace into a list ordered by ascending block number. -/
def insertByNumber (t : BlockTrace) : List BlockTrace → List BlockTrace
  | [] => [t]
  | u :: us =>
    if t.header.number ≤ u.header.number then t :: u :: us
    else u :: insertByNumber t us

/-- Sort traces by ascending block number (`ORDER BY number ASC`). -/
def sortByNumber : List BlockTrace → List BlockTrace
  | [] => []
  | t :: ts => insertByNumber t (sortByNumber ts)

/-- The block traces of a batch in ascending block-number order: the rows
`GetBlockTraces(map{"batch_id": id}, "ORDER BY number ASC")` yields. -/
def batchTraces (db : BridgeDB) (id : String) : List BlockTrace :=
  sortByNumber (db.blockTraces.filter (fun t => t.batchId = id))

/-- Modelled from the spec: `db.GetBlockTraces` is not under `src/`; it
returns the batch's traces in the requested order. `none` is a store
error. -/
def getBlockTraces (db : BridgeDB) (id : String) : Option (List BlockTrace) :=
  if db.failGetBlockTraces then none
  else some (batchTraces db id)

/-- Insertion of a batch row into a list ordered by ascending batch index. -/
def insertByIndex (b : BlockBatch) : List BlockBatch → List BlockBatch
  | [] => [b]
  | c :: cs =>
    if b.index ≤ c.index then b :: c :: cs
    else c :: insertByIndex b cs

/-- Sort batch rows by ascending batch index. -/
def sortByIndex : List BlockBatch → List BlockBatch
  | [] => []
  | b :: bs => insertByIndex b (sortByIndex bs)

/-- Modelled from the spec: `db.GetPendingBatches(limit)` is not under
`src/`; it returns the ids of at most `limit` batches with rollup status
*Pending*, sorted by batch index in increasing order. `none` is a store
error. -/
def getPendingBatches (db : BridgeDB) (limit : Nat) : Option (List String) :=
  if db.failGetPendingBatches then none
  else some
    (((sortByIndex (db.blockBatches.filter (fun b => b.rollupStatus = .pending))).map
      (fun b => b.id)).take limit)

/-- Modelled from the spec: `db.GetBatchesByRollupStatus(status, limit)` is
not under `src/`; it returns the ids of at most `limit` batches with the
given rollup status. `none` is a store error. -/
def getBatchesByRollupStatus (db : BridgeDB) (st : RollupStatus)
    (limit : Nat) : Option (List String) :=
  if db.failGetBatchesByRollupStatus then none
  else some
    (((sortByIndex (db.blockBatches.filter (fun b => b.rollupStatus = st))).map
      (fun b => b.id)).take limit)

/-- Modelled from the spec: `db.GetCommitTxHash(id)` is not under `src/`; it
returns the batch's `commit_tx_hash` column as a nullable string (`""` when
null, mirroring `sql.NullString.String`), and errors when the row is
missing. -/
def getCommitTxHash (db : BridgeDB) (id : String) : Option String :=
  (db.blockBatches.find? (fun b => b.id = id)).map
    (fun b => b.commitTxHash.getD "")

/-- Modelled from the spec: `db.UpdateCommitTxHashAndRollupStatus` is not
under `src/`; it atomically sets the batch's commit-transaction hash and
rollup status. `none` is a store error. -/
def updateCommitTxHashAndRollupStatus (db : BridgeDB) (id txHash : String)
    (st : RollupStatus) : Option BridgeDB :=
  if db.failUpdateCommitTxHash then none
  else some { db with blockBatches := db.blockBatches.map (fun b =>
    if b.id = id then { b with commitTxHash := some txHash, rollupStatus := st }
    else b) }

/-! ## committedPack -/

/-- One ledger-facing transaction built from a stored transaction (the inner
loop of `committedPack`; a nil `To` leaves `Target` at the zero value, and
`V` is `ToInt().Uint64()`). -/
def mkL2Tx (tx : RPCTransaction) : L2Tx :=
  { caller := tx.fromAddr
    target := tx.toAddr.getD ""
    nonce := tx.nonce
    gas := tx.gas
    gasPrice := tx.gasPrice
    value := tx.value
    data := hex2Bytes tx.data
    r := tx.r
    s := tx.s
    v := tx.v.toNat % 2 ^ 64 }

/-- One ledger-facing block header built from a trace: the computed header
hash, the caller-supplied parent hash, and per-transaction gas summed into
`gasUsed` (the Go loop indexes `ExecutionResults` by transaction index). -/
def mkL2BlockHeader (parentHash : Hash) (t : BlockTrace) : L2BlockHeader :=
  { blockHash := headerHash t.header
    parentHash := parentHash
    baseFee := t.header.baseFee
    stateRoot := t.storageTraceRootAfter
    blockHeight := t.header.number
    gasUsed := ((t.executionResults.take t.transactions.length).map
      (fun e => e.gas)).sum
    timestamp := t.header.time
    extraData := ⟨""⟩
    txs := t.transactions.map mkL2Tx }

/-- The block loop of `committedPack`: each block's parent hash is the
previous block's computed hash, seeded with the batch's own parent hash. -/
def buildBlocks (parentHash : Hash) : List BlockTrace → List L2BlockHeader
  | [] => []
  | t :: ts =>
    let blk := mkL2BlockHeader parentHash t
    blk :: buildBlocks blk.blockHash ts

/-- The `IZKRollupLayer2Batch` value `committedPack` assembles. -/
def mkLayer2Batch (batch : BlockBatch) (traces : List BlockTrace) : L2Batch :=
  { batchIndex := batch.index
    parentHash := hexToHash batch.parentHash
    blocks := buildBlocks (hexToHash batch.parentHash) traces }

/-- `Layer2Relayer.committedPack`: load the batch row and its ordered traces,
assemble the ledger-facing batch and ABI-encode it. Mirrors the Go triple
return `(batch, data, err)` — note that an empty row or trace set returns
`(nil, nil, nil)` since `err` is nil on that branch. -/
def committedPack (db : BridgeDB) (id : String) :
    Option BlockBatch × Option Calldata × Option BridgeErr :=
  match getBlockBatches db id with
  | none => (none, none, some .storeError)
  | some [] => (none, none, none)
  | some (batch :: _) =>
    match getBlockTraces db id with
    | none => (none, none, some .storeError)
    | some [] => (none, none, none)
    | some (t :: ts) =>
      let layer2Batch := mkLayer2Batch batch (t :: ts)
      match abiPackCommitBatch layer2Batch with
      | .error e => (none, none, some e)
      | .ok data => (some batch, some data, none)

/-! ## Relayer entry points -/

/-- Process-local relayer state: the in-flight commit map
(`processingCommitment`). -/
structure RelayerState where
  processingCommitment : List (String × String)
deriving DecidableEq, Repr

/-- `sync.Map.Store`: insert or overwrite a key. -/
def mapStore (m : List (String × String)) (k v : String) :
    List (String × String) :=
  (k, v) :: m.filter (fun p => p.1 ≠ k)

/-- Distinguished transaction-sender errors. -/
inductive SendErr
  | noAvailableAccount
  | sendFailed
deriving DecidableEq, Repr

/-- The external transaction sender's behaviour for this cycle: the outcome
of `SendTransaction` and the set of logical ids whose `LoadOrSendTx`
fails. -/
structure SenderEnv where
  sendResult : Except SendErr String
  loadOrSendFailIDs : List String
deriving DecidableEq, Repr

/-- One call handed to the sender's idempotent resume operation
`LoadOrSendTx(knownHash, txID, to, value, data)`. -/
structure ResumeCall where
  knownHash : Hash
  txID : String
  value : Int
  data : Option Calldata
deriving DecidableEq, Repr

/-- One iteration of `commitInit`'s loop for a single batch id: read the
stored commit-transaction hash, rebuild the calldata, and produce the resume
call — skipping (`none`) when either store read reports an error. The data
of `committedPack` is passed through even when it is nil. -/
def commitInitStep (db : BridgeDB) (id : String) : Option ResumeCall :=
  match getCommitTxHash db id with
  | none => none
  | some txStr =>
    match committedPack db id with
    | (_, _, some _) => none
    | (_, dataO, none) =>
      some { knownHash := hexToHash txStr
             txID := id ++ "-commit"
             value := 0
             data := dataO }

/-- The loop of `commitInit`: issue the resume call for every id and register
the in-flight map entry when the sender's resume succeeds. -/
def commitInitLoop (env : SenderEnv) (db : BridgeDB) :
    List String → List (String × String) →
    List ResumeCall × List (String × String)
  | [], m => ([], m)
  | id :: ids, m =>
    match commitInitStep db id with
    | none => commitInitLoop env db ids m
    | some call =>
      let next :=
        if call.txID ∈ env.loadOrSendFailIDs then commitInitLoop env db ids m
        else commitInitLoop env db ids (mapStore m call.txID id)
      (call :: next.1, next.2)

/-- `Layer2Relayer.commitInit`: resume every batch already in status
*Committing* (bounded page of 10). Returns the resume calls issued, the
updated relayer state, and the propagated error of the status query. -/
def commitInit (env : SenderEnv) (db : BridgeDB) (r : RelayerState) :
    (List ResumeCall × RelayerState) × Option BridgeErr :=
  match getBatchesByRollupStatus db .committing 10 with
  | none => (([], r), some .storeError)
  | some [] => (([], r), none)
  | some (id :: ids) =>
    let (cs, m') := commitInitLoop env db (id :: ids) r.processingCommitment
    ((cs, { processingCommitment := m' }), none)

/-- `Layer2Relayer.ProcessPendingBatches`: fetch the oldest pending batch,
build its calldata, send the commit transaction, then update the store row
and register the in-flight map entry. A store-update failure is only logged:
the map entry is registered regardless. -/
def processPendingBatches (env : SenderEnv) (db : BridgeDB)
    (r : RelayerState) : BridgeDB × RelayerState :=
  match getPendingBatches db 1 with
  | none => (db, r)
  | some [] => (db, r)
  | some (id :: _) =>
    match committedPack db id with
    | (_, _, some _) => (db, r)
    | (_, _, none) =>
      let txID := id ++ "-commit"
      match env.sendResult with
      | .error _ => (db, r)
      | .ok txHash =>
        let db' :=
          match updateCommitTxHashAndRollupStatus db id txHash .committing with
          | none => db
          | some dbU => dbU
        (db', { processingCommitment := mapStore r.processingCommitment txID id })

/-! ## Derived state descriptions -/

/-- Store state after a successful assignment transaction of `Collect`: the
batch is conditionally moved to *Assigned* and one audit row is inserted. -/
def assignedState (db : CoordinatorDB) (b : CoBatch) (pk pn : String)
    (now : Nat) : CoordinatorDB :=
  { db with
    batches := setStatusWhere db.batches b.hash .unassigned .assigned
    proverTasks := db.proverTasks ++ [mkProverTask b.hash pk pn now] }

/-- Task id returned by invocation `i` of a finished schedule, when that
invocation ended with a task. -/
def doneTaskOf (invs : List (CollectCtx × Phase)) (i : Nat) : Option String :=
  match invs[i]? with
  | some (_, .done (.ok (some s))) => some s.taskID
  | _ => none

end Scroll

namespace Scroll

/-! ## Concrete fixtures used by witnesses and counterexamples -/

/-- Example coordinator configuration. -/
def exCfg : CoordinatorConfig := { chainID := 53, maxAttempts := 3 }

/-- Example configuration whose attempt budget is already zero. -/
def exCfgZero : CoordinatorConfig := { chainID := 53, maxAttempts := 0 }

/-- Example chunk of batch `b1` with a decodable proof blob. -/
def exChunk : Chunk :=
  { batchHash := "b1", hash := "c1", parentChunkStateRoot := "pr1",
    stateRoot := "sr1", withdrawRoot := "wr1", proof := .wellFormed ⟨11⟩ }

/-- Second example chunk of batch `b1`. -/
def exChunk2 : Chunk :=
  { batchHash := "b1", hash := "c2", parentChunkStateRoot := "pr2",
    stateRoot := "sr2", withdrawRoot := "wr2", proof := .wellFormed ⟨22⟩ }

/-- Example unassigned batch row. -/
def exBatch : CoBatch := { hash := "b1", index := 0, provingStatus := .unassigned }

/-- Example coordinator store with one unassigned batch and two proved
chunks. -/
def exDb : CoordinatorDB :=
  { batches := [exBatch]
    chunks := [exChunk, exChunk2]
    proverTasks := []
    failGetUnassignedBatches := false
    failUpdateProvingStatus := false
    failSetProverTask := false
    failGetChunks := false }

/-- Example coordinator store whose single chunk has an undecodable proof
blob. -/
def exDbBadProof : CoordinatorDB :=
  { exDb with chunks := [{ exChunk with proof := .malformed }] }

/-- Example coordinator store with a batch that has zero chunks. -/
def exDbNoChunks : CoordinatorDB := { exDb with chunks := [] }

/-- Example request context of prover `alice`. -/
def exCtx : CollectCtx := { publicKey := some "pkA", proverName := some "alice" }

/-- Example request context of prover `bob`. -/
def exCtxB : CollectCtx := { publicKey := some "pkB", proverName := some "bob" }

/-- Second example unassigned batch row. -/
def exBatchB : CoBatch := { hash := "b2", index := 1, provingStatus := .unassigned }

/-- Two concurrent invocations of `Collect`, both at the start. -/
def exInvs : List (CollectCtx × Phase) := [(exCtx, .start), (exCtxB, .start)]

end Scroll

namespace Scroll

/-! ## Concrete bridge fixtures -/

/-- Example block header of height 100. -/
def exHeader : BlockHeader := { baseFee := 3, number := 100, time := 999, rest := 42 }

/-- Example block header of height 101. -/
def exHeader2 : BlockHeader := { baseFee := 4, number := 101, time := 1000, rest := 43 }

/-- Example stored transaction. -/
def exTx : RPCTransaction :=
  { fromAddr := "0xf", nonce := 1, gas := 21000, gasPrice := 2, value := 5,
    data := "aa", r := 1, s := 2, v := 27, toAddr := some "0xt" }

/-- Example block trace of batch `B1` at height 100. -/
def exTrace : BlockTrace :=
  { batchId := "B1", header := exHeader, storageTraceRootAfter := hexToHash "root1",
    transactions := [exTx], executionResults := [⟨21000⟩] }

/-- Example block trace of batch `B1` at height 101. -/
def exTrace2 : BlockTrace :=
  { batchId := "B1", header := exHeader2, storageTraceRootAfter := hexToHash "root2",
    transactions := [], executionResults := [] }

/-- Example pending block batch. -/
def exPendingBatch : BlockBatch :=
  { id := "B1", index := 9, parentHash := "ph", rollupStatus := .pending,
    commitTxHash := none }

/-- Example committing block batch with a stored commit-transaction hash. -/
def exCommittingBatch : BlockBatch :=
  { id := "B1", index := 9, parentHash := "ph", rollupStatus := .committing,
    commitTxHash := some "0xtc" }

/-- Example bridge store with one pending batch and two traces. -/
def exBridgeDb : BridgeDB :=
  { blockBatches := [exPendingBatch]
    blockTraces := [exTrace, exTrace2]
    failGetBlockBatches := false
    failGetBlockTraces := false
    failGetPendingBatches := false
    failGetBatchesByRollupStatus := false
    failUpdateCommitTxHash := false }

/-- Example bridge store whose commit-status update fails. -/
def exBridgeDbFailUpdate : BridgeDB := { exBridgeDb with failUpdateCommitTxHash := true }

/-- Example bridge store with a batch already in status *Committing*. -/
def exBridgeDbCommitting : BridgeDB :=
  { exBridgeDb with blockBatches := [exCommittingBatch] }

/-- Example bridge store whose batch has zero block traces. -/
def exBridgeDbNoTraces : BridgeDB := { exBridgeDb with blockTraces := [] }

/-- Example sender environment whose send succeeds. -/
def exEnv : SenderEnv := { sendResult := .ok "0xh", loadOrSendFailIDs := [] }

/-- The calldata `committedPack` builds for `exBridgeDb`'s batch `B1`. -/
def exCd : Calldata :=
  { method := "commitBatch"
    payload := mkLayer2Batch exPendingBatch (batchTraces exBridgeDb "B1") }

/-- The payload schema `formatProverTask` builds for `exDb`'s batch `b1`. -/
def exSchema : ProverTaskSchema :=
  { taskID := "b1", proofType := 2
    proofData := { chunkInfos := [mkChunkInfo exCfg exChunk, mkChunkInfo exCfg exChunk2]
                   chunkProofs := [⟨11⟩, ⟨22⟩] } }

end Scroll

namespace Scroll

/-! ## General lemmas about the coordinator store -/

lemma statusOf_setStatusWhere (bs : List CoBatch) (x : String)
    (e t : ProvingStatus) (h : String) :
    statusOf (setStatusWhere bs x e t) h =
      if h = x ∧ statusOf bs h = some e then some t else statusOf bs h := by
  unfold statusOf setStatusWhere
  rw [List.find?_map]
  have hcomp : ((fun b : CoBatch => decide (b.hash = h)) ∘
      (fun b : CoBatch =>
        if b.hash = x ∧ b.provingStatus = e then { b with provingStatus := t }
        else b)) = (fun b : CoBatch => decide (b.hash = h)) := by
    funext b
    by_cases hbx : b.hash = x ∧ b.provingStatus = e <;> simp [hbx]
  rw [hcomp]
  cases hfind : bs.find? (fun b => decide (b.hash = h)) with
  | none => simp
  | some b0 =>
    have hb0 : b0.hash = h := by simpa using List.find?_some hfind
    by_cases hcond : b0.hash = x ∧ b0.provingStatus = e
    · have hx : h = x := hb0 ▸ hcond.1
      simp [hcond, hx, hcond.2]
    · have hne : ¬ (h = x ∧ b0.provingStatus = e) :=
        fun hp => hcond ⟨hb0.trans hp.1, hp.2⟩
      simp [hcond, hne]

lemma find?_eq_of_mem_nodup (bs : List CoBatch) (b : CoBatch)
    (hnd : (bs.map (fun x => x.hash)).Nodup) (hmem : b ∈ bs) :
    bs.find? (fun x => decide (x.hash = b.hash)) = some b := by
  induction bs with
  | nil => cases hmem
  | cons c cs ih =>
    rw [List.map_cons, List.nodup_cons] at hnd
    rcases List.mem_cons.mp hmem with hbc | hbcs
    · subst hbc
      simp [List.find?]
    · have hcne : c.hash ≠ b.hash := by
        intro heq
        exact hnd.1 (heq ▸ List.mem_map.mpr ⟨b, hbcs, rfl⟩)
      simp [List.find?, hcne, ih hnd.2 hbcs]

lemma statusOf_of_mem_nodup (db : CoordinatorDB) (b : CoBatch)
    (hnd : (db.batches.map (fun x => x.hash)).Nodup) (hmem : b ∈ db.batches) :
    statusOf db.batches b.hash = some b.provingStatus := by
  unfold statusOf
  rw [find?_eq_of_mem_nodup db.batches b hnd hmem]
  rfl

lemma mem_of_getUnassigned (db : CoordinatorDB) (b : CoBatch)
    (bs : List CoBatch) (hq : getUnassignedBatches db 1 = some bs)
    (hmem : b ∈ bs) : b ∈ db.batches ∧ b.provingStatus = .unassigned := by
  unfold getUnassignedBatches at hq
  split at hq
  · cases hq
  · injection hq with hq
    subst hq
    have h2 := List.mem_filter.mp (List.take_subset _ _ hmem)
    exact ⟨h2.1, by simpa using h2.2⟩

lemma collectAssignAndFormat_cases (cfg : CoordinatorConfig) (now : Nat)
    (db : CoordinatorDB) (b : CoBatch) (pk pn : String) :
    ((collectAssignAndFormat cfg now db b pk pn).1 = db ∧
      ∃ e, (collectAssignAndFormat cfg now db b pk pn).2 = .error e) ∨
    (collectAssignAndFormat cfg now db b pk pn).1 =
      assignedState db b pk pn now := by
  cases h1 : db.failUpdateProvingStatus with
  | true =>
    left
    refine ⟨?_, ⟨.updateStatusFailed b.hash, ?_⟩⟩ <;>
      simp [collectAssignAndFormat, dbTransaction, updateProvingStatus, h1]
  | false =>
    cases h2 : db.failSetProverTask with
    | true =>
      left
      refine ⟨?_, ⟨.setProverTaskFailed b.hash, ?_⟩⟩ <;>
        simp [collectAssignAndFormat, dbTransaction, updateProvingStatus,
          setProverTask, h1, h2]
    | false =>
      right
      simp only [collectAssignAndFormat, dbTransaction, updateProvingStatus,
        setProverTask, h1, h2, Bool.false_eq_true, if_false]
      split <;> simp [assignedState, h1, h2]

end Scroll

namespace Scroll

end Scroll

namespace Scroll

/-! ## Lemmas for the concurrent dispatch model -/

lemma statusOf_setStatusWhere_no_revive (bs : List CoBatch) (x : String)
    (t : ProvingStatus) (h : String) (ht : t ≠ .unassigned)
    (hne : statusOf bs h ≠ some .unassigned) :
    statusOf (setStatusWhere bs x .unassigned t) h ≠ some .unassigned := by
  rw [statusOf_setStatusWhere]
  split
  · intro hc
    injection hc with hc
    exact ht hc
  · exact hne

lemma collectPhase1_batches (cfg : CoordinatorConfig) (ctx : CollectCtx)
    (db : CoordinatorDB) :
    (collectPhase1 cfg ctx db).1.batches = db.batches ∨
    ∃ x, (collectPhase1 cfg ctx db).1.batches =
      setStatusWhere db.batches x .unassigned .failed := by
  rcases hq : getUnassignedBatches db 1 with _ | (_ | ⟨b, rest⟩)
  · left
    simp [collectPhase1, hq]
  · left
    simp [collectPhase1, hq]
  · by_cases hlen : rest.length ≠ 0
    · left
      simp [collectPhase1, hq, hlen]
    · by_cases hcond : cfg.maxAttempts ≤ attemptCount db b.hash .batch
      · right
        refine ⟨b.hash, ?_⟩
        simp [collectPhase1, hq, hlen, checkAttemptsExceeded, hcond]
      · rcases hpk : ctx.publicKey with _ | pk
        · left
          simp [collectPhase1, hq, hlen, checkAttemptsExceeded, hcond, hpk]
        · rcases hpn : ctx.proverName with _ | pn
          · left
            simp [collectPhase1, hq, hlen, checkAttemptsExceeded, hcond, hpk, hpn]
          · left
            simp [collectPhase1, hq, hlen, checkAttemptsExceeded, hcond, hpk, hpn]

lemma collectAssignAndFormat_batches (cfg : CoordinatorConfig) (now : Nat)
    (db : CoordinatorDB) (b : CoBatch) (pk pn : String) :
    (collectAssignAndFormat cfg now db b pk pn).1.batches = db.batches ∨
    (collectAssignAndFormat cfg now db b pk pn).1.batches =
      setStatusWhere db.batches b.hash .unassigned .assigned := by
  rcases collectAssignAndFormat_cases cfg now db b pk pn with ⟨hdb, _⟩ | hdb
  · left
    rw [hdb]
  · right
    rw [hdb]
    rfl

lemma stepInvocation_no_revive (cfg : CoordinatorConfig) (ctx : CollectCtx)
    (now : Nat) (db : CoordinatorDB) (p : Phase) (h : String)
    (hne : statusOf db.batches h ≠ some .unassigned) :
    statusOf (stepInvocation cfg ctx now db p).1.batches h ≠
      some .unassigned := by
  cases p with
  | start =>
    show statusOf (collectPhase1 cfg ctx db).1.batches h ≠ some .unassigned
    rcases collectPhase1_batches cfg ctx db with hb | ⟨x, hb⟩
    · rw [hb]; exact hne
    · rw [hb]
      exact statusOf_setStatusWhere_no_revive db.batches x .failed h
        (by intro hc; cases hc) hne
  | selected b pk pn =>
    have hstep : (stepInvocation cfg ctx now db (.selected b pk pn)).1 =
        (collectAssignAndFormat cfg now db b pk pn).1 := by
      unfold stepInvocation
      rcases hc : collectAssignAndFormat cfg now db b pk pn with ⟨db', r⟩
      simp [hc]
    rw [hstep]
    rcases collectAssignAndFormat_batches cfg now db b pk pn with hb | hb
    · rw [hb]; exact hne
    · rw [hb]
      exact statusOf_setStatusWhere_no_revive db.batches b.hash .assigned h
        (by intro hc; cases hc) hne
  | done r => exact hne

lemma scheduleTrace_cons_none (cfg : CoordinatorConfig) (now i : Nat)
    (rest : List Nat) (db : CoordinatorDB) (invs : List (CollectCtx × Phase))
    (hinv : invs[i]? = none) :
    scheduleTrace cfg now (i :: rest) db invs =
      db :: scheduleTrace cfg now rest db invs := by
  conv_lhs => unfold scheduleTrace
  rw [hinv]

lemma scheduleTrace_cons_some (cfg : CoordinatorConfig) (now i : Nat)
    (rest : List Nat) (db : CoordinatorDB) (invs : List (CollectCtx × Phase))
    (ctx : CollectCtx) (p : Phase) (hinv : invs[i]? = some (ctx, p)) :
    scheduleTrace cfg now (i :: rest) db invs =
      db :: scheduleTrace cfg now rest (stepInvocation cfg ctx now db p).1
        (invs.set i (ctx, (stepInvocation cfg ctx now db p).2)) := by
  conv_lhs => unfold scheduleTrace
  rw [hinv]

lemma scheduleTrace_head (cfg : CoordinatorConfig) (now : Nat)
    (sched : List Nat) (db : CoordinatorDB)
    (invs : List (CollectCtx × Phase)) :
    ∃ tl, scheduleTrace cfg now sched db invs = db :: tl := by
  cases sched with
  | nil => exact ⟨[], rfl⟩
  | cons i rest =>
    cases hinv : invs[i]? with
    | none =>
      rw [scheduleTrace_cons_none cfg now i rest db invs hinv]
      exact ⟨_, rfl⟩
    | some cp =>
      rcases cp with ⟨ctx, p⟩
      rw [scheduleTrace_cons_some cfg now i rest db invs ctx p hinv]
      exact ⟨_, rfl⟩

lemma scheduleTrace_no_revive (cfg : CoordinatorConfig) (now : Nat) :
    ∀ (sched : List Nat) (db : CoordinatorDB)
      (invs : List (CollectCtx × Phase)) (h : String),
      NoRevive h (scheduleTrace cfg now sched db invs) := by
  intro sched
  induction sched with
  | nil =>
    intro db invs h
    exact trivial
  | cons i rest ih =>
    intro db invs h
    cases hinv : invs[i]? with
    | none =>
      rw [scheduleTrace_cons_none cfg now i rest db invs hinv]
      obtain ⟨tl, htl⟩ := scheduleTrace_head cfg now rest db invs
      rw [htl]
      exact ⟨fun hx => hx, htl ▸ ih db invs h⟩
    | some cp =>
      rcases cp with ⟨ctx, p⟩
      rw [scheduleTrace_cons_some cfg now i rest db invs ctx p hinv]
      obtain ⟨tl, htl⟩ := scheduleTrace_head cfg now rest
        (stepInvocation cfg ctx now db p).1
        (invs.set i (ctx, (stepInvocation cfg ctx now db p).2))
      rw [htl]
      exact ⟨stepInvocation_no_revive cfg ctx now db p h, htl ▸ ih _ _ h⟩

lemma countTransitions_zero (h : String) :
    ∀ (tr : List CoordinatorDB) (d : CoordinatorDB),
      statusOf d.batches h ≠ some .unassigned → NoRevive h (d :: tr) →
      countTransitions h (d :: tr) = 0 := by
  intro tr
  induction tr with
  | nil =>
    intro d _ _
    rfl
  | cons d2 rest ih =>
    intro d hd hnr
    have hcond : ¬ (statusOf d.batches h = some .unassigned ∧
        statusOf d2.batches h = some .assigned) := fun hc => hd hc.1
    show (if statusOf d.batches h = some .unassigned ∧
        statusOf d2.batches h = some .assigned then 1 else 0)
      + countTransitions h (d2 :: rest) = 0
    rw [if_neg hcond]
    have hd2 := hnr.1 hd
    simpa using ih d2 hd2 hnr.2

lemma countTransitions_le_one (h : String) :
    ∀ (tr : List CoordinatorDB), NoRevive h tr →
      countTransitions h tr ≤ 1 := by
  intro tr
  induction tr with
  | nil =>
    intro
    simp [countTransitions]
  | cons d rest ih =>
    intro hnr
    cases rest with
    | nil => simp [countTransitions]
    | cons d2 rest2 =>
      by_cases hc : statusOf d.batches h = some .unassigned ∧
          statusOf d2.batches h = some .assigned
      · have hd2 : statusOf d2.batches h ≠ some .unassigned := by
          rw [hc.2]
          simp
        have hz := countTransitions_zero h rest2 d2 hd2 hnr.2
        show (if statusOf d.batches h = some .unassigned ∧
            statusOf d2.batches h = some .assigned then 1 else 0)
          + countTransitions h (d2 :: rest2) ≤ 1
        rw [if_pos hc, hz]
      · show (if statusOf d.batches h = some .unassigned ∧
            statusOf d2.batches h = some .assigned then 1 else 0)
          + countTransitions h (d2 :: rest2) ≤ 1
        rw [if_neg hc]
        simpa using ih hnr.2

end Scroll

namespace Scroll

/-! ## Lemmas about committedPack -/

lemma buildBlocks_length : ∀ (ts : List BlockTrace) (ph : Hash),
    (buildBlocks ph ts).length = ts.length := by
  intro ts
  induction ts with
  | nil => intro ph; rfl
  | cons t ts ih =>
    intro ph
    simp [buildBlocks, ih]

lemma buildBlocks_head_parent (ts : List BlockTrace) (ph : Hash)
    (b0 : L2BlockHeader) (h : (buildBlocks ph ts)[0]? = some b0) :
    b0.parentHash = ph := by
  cases ts with
  | nil => simp [buildBlocks] at h
  | cons t ts =>
    simp [buildBlocks] at h
    rw [← h]
    rfl

lemma buildBlocks_get_blockHash : ∀ (ts : List BlockTrace) (ph : Hash)
    (i : Nat) (bi : L2BlockHeader), (buildBlocks ph ts)[i]? = some bi →
    ∀ ti, ts[i]? = some ti → bi.blockHash = headerHash ti.header := by
  intro ts
  induction ts with
  | nil => intro ph i bi h; simp [buildBlocks] at h
  | cons t ts ih =>
    intro ph i bi h ti hti
    cases i with
    | zero =>
      simp [buildBlocks] at h
      simp at hti
      rw [← h, ← hti]
      rfl
    | succ n =>
      simp [buildBlocks] at h
      simp at hti
      exact ih _ n bi h ti hti

lemma buildBlocks_chain : ∀ (ts : List BlockTrace) (ph : Hash) (i : Nat)
    (bi bj : L2BlockHeader), (buildBlocks ph ts)[i]? = some bi →
    (buildBlocks ph ts)[i + 1]? = some bj →
    bj.parentHash = bi.blockHash := by
  intro ts
  induction ts with
  | nil => intro ph i bi bj h _; simp [buildBlocks] at h
  | cons t ts ih =>
    intro ph i bi bj hi hj
    cases i with
    | zero =>
      simp [buildBlocks] at hi hj
      have := buildBlocks_head_parent ts (mkL2BlockHeader ph t).blockHash bj hj
      rw [this, ← hi]
    | succ n =>
      simp [buildBlocks] at hi hj
      exact ih _ n bi bj hi hj

lemma committedPack_ok_shape (db : BridgeDB) (id : String)
    (batch : BlockBatch) (cd : Calldata)
    (h : committedPack db id = (some batch, some cd, none)) :
    cd = { method := "commitBatch",
           payload := mkLayer2Batch batch (batchTraces db id) } ∧
    batchTraces db id ≠ [] := by
  unfold committedPack at h
  cases hb : getBlockBatches db id with
  | none => rw [hb] at h; simp at h
  | some bl =>
    rw [hb] at h
    cases bl with
    | nil => simp at h
    | cons batch0 brest =>
      cases ht : getBlockTraces db id with
      | none => rw [ht] at h; simp at h
      | some tl =>
        rw [ht] at h
        cases tl with
        | nil => simp at h
        | cons t ts =>
          simp [abiPackCommitBatch] at h
          obtain ⟨h1, rfl⟩ := h
          have hbt : batchTraces db id = t :: ts := by
            unfold getBlockTraces at ht
            split at ht
            · cases ht
            · injection ht
          constructor
          · rw [h1, hbt]
          · rw [hbt]
            simp

end Scroll

namespace Scroll

lemma buildChunkData_spec (cfg : CoordinatorConfig) :
    ∀ (cs : List Chunk) (ps : List ChunkProof) (infos : List ChunkInfo),
      buildChunkData cfg cs = .ok (ps, infos) →
      ps.length = cs.length ∧ infos.length = cs.length ∧
      (∀ i : Nat, ps[i]? = (cs[i]?).bind (fun c => unmarshalChunkProof c.proof)) ∧
      (∀ i : Nat, infos[i]? = (cs[i]?).map (fun c => mkChunkInfo cfg c)) := by
  intro cs
  induction cs with
  | nil =>
    intro ps infos h
    unfold buildChunkData at h
    injection h with h
    injection h with h1 h2
    subst h1
    subst h2
    simp
  | cons c cs ih =>
    intro ps infos h
    unfold buildChunkData at h
    cases hu : unmarshalChunkProof c.proof with
    | none =>
      rw [hu] at h
      cases h
    | some p =>
      rw [hu] at h
      cases hrec : buildChunkData cfg cs with
      | error e =>
        rw [hrec] at h
        cases h
      | ok pr =>
        rcases pr with ⟨ps', infos'⟩
        rw [hrec] at h
        injection h with h
        injection h with h1 h2
        subst h1
        subst h2
        obtain ⟨l1, l2, hp, hi⟩ := ih ps' infos' hrec
        refine ⟨by simp [l1], by simp [l2], ?_, ?_⟩
        · intro i
          cases i with
          | zero => simp [hu]
          | succ n => simpa using hp n
        · intro i
          cases i with
          | zero => simp
          | succ n => simpa using hi n

end Scroll

namespace Scroll

/-! ## Claims -/

/-- C1: for every invocation of `BatchProverTask.Collect` that assigns a
batch, the two writes — the batch's proving status moving *Unassigned* to
*Assigned*, and the insertion of a new ProverTask row with `assignedAt` set
to the current UTC time — happen inside one store transaction: either both
take effect or neither does, and a state in which exactly one of them
happened is never observable. -/
theorem collect_assignment_atomic (cfg : CoordinatorConfig)
    (ctx : CollectCtx) (now : Nat) (db : CoordinatorDB)
    (hnd : (db.batches.map (fun x => x.hash)).Nodup) :
    (∃ h pk pn, statusOf db.batches h = some .unassigned ∧
        statusOf (collect cfg ctx now db).1.batches h = some .assigned ∧
        (collect cfg ctx now db).1.proverTasks =
          db.proverTasks ++ [mkProverTask h pk pn now]) ∨
    ((collect cfg ctx now db).1.proverTasks = db.proverTasks ∧
      ∀ h, statusOf db.batches h = some .unassigned →
        statusOf (collect cfg ctx now db).1.batches h ≠ some .assigned) := by
  cases hq : getUnassignedBatches db 1 with
  | none =>
    right
    have hcoll : collect cfg ctx now db = (db, .error .getUnassignedFailed) := by
      simp [collect, hq]
    rw [hcoll]
    exact ⟨rfl, fun h hun => by simp [hun]⟩
  | some bs =>
    cases bs with
    | nil =>
      right
      have hcoll : collect cfg ctx now db = (db, .ok none) := by
        simp [collect, hq, collectWithBatches]
      rw [hcoll]
      exact ⟨rfl, fun h hun => by simp [hun]⟩
    | cons b rest =>
      cases rest with
      | cons c rest' =>
        right
        have hcoll : collect cfg ctx now db = (db, .error .lenNot1) := by
          simp [collect, hq, collectWithBatches]
        rw [hcoll]
        exact ⟨rfl, fun h hun => by simp [hun]⟩
      | nil =>
        by_cases hcond : cfg.maxAttempts ≤ attemptCount db b.hash .batch
        · right
          have hcoll : collect cfg ctx now db =
              ({ db with batches := setStatusWhere db.batches b.hash .unassigned .failed },
                .error (.attemptsExceeded b.hash)) := by
            simp [collect, hq, collectWithBatches, checkAttemptsExceeded, hcond]
          rw [hcoll]
          refine ⟨rfl, ?_⟩
          intro h hun
          simp only
          rw [statusOf_setStatusWhere]
          split
          · simp
          · simp [hun]
        · cases hpk : ctx.publicKey with
          | none =>
            right
            have hcoll : collect cfg ctx now db = (db, .error .noPublicKey) := by
              simp [collect, hq, collectWithBatches, checkAttemptsExceeded, hcond, hpk]
            rw [hcoll]
            exact ⟨rfl, fun h hun => by simp [hun]⟩
          | some pk =>
            cases hpn : ctx.proverName with
            | none =>
              right
              have hcoll : collect cfg ctx now db = (db, .error .noProverName) := by
                simp [collect, hq, collectWithBatches, checkAttemptsExceeded, hcond, hpk, hpn]
              rw [hcoll]
              exact ⟨rfl, fun h hun => by simp [hun]⟩
            | some pn =>
              have hco : collect cfg ctx now db =
                  collectAssignAndFormat cfg now db b pk pn := by
                simp [collect, hq, collectWithBatches, checkAttemptsExceeded, hcond, hpk, hpn]
              rcases collectAssignAndFormat_cases cfg now db b pk pn with
                ⟨hdb, e, herr⟩ | hdb
              · right
                rw [hco, hdb]
                exact ⟨rfl, fun h hun => by simp [hun]⟩
              · left
                have hpre : statusOf db.batches b.hash = some .unassigned := by
                  have hm := mem_of_getUnassigned db b [b] hq (List.mem_singleton.mpr rfl)
                  have hs := statusOf_of_mem_nodup db b hnd hm.1
                  rw [hm.2] at hs
                  exact hs
                refine ⟨b.hash, pk, pn, hpre, ?_, ?_⟩
                · rw [hco, hdb]
                  show statusOf (setStatusWhere db.batches b.hash .unassigned .assigned) b.hash
                    = some .assigned
                  rw [statusOf_setStatusWhere]
                  simp [hpre]
                · rw [hco, hdb]
                  rfl

/-- Witness for C1 at a concrete store with one unassigned batch. -/
theorem collect_assignment_atomic_witness :
    (∃ h pk pn, statusOf exDb.batches h = some .unassigned ∧
        statusOf (collect exCfg exCtx 7 exDb).1.batches h = some .assigned ∧
        (collect exCfg exCtx 7 exDb).1.proverTasks =
          exDb.proverTasks ++ [mkProverTask h pk pn 7]) ∨
    ((collect exCfg exCtx 7 exDb).1.proverTasks = exDb.proverTasks ∧
      ∀ h, statusOf exDb.batches h = some .unassigned →
        statusOf (collect exCfg exCtx 7 exDb).1.batches h ≠ some .assigned) :=
  collect_assignment_atomic exCfg exCtx 7 exDb (by decide)

/-- C2 (amended): over every interleaved schedule of any number of
concurrent `Collect` invocations, the shared store undergoes at most one
*Unassigned* → *Assigned* transition per batch id. (The original claim's
second half — that every other invocation sees a different unit or no
work — fails; see the counterexample.) -/
theorem collect_concurrent_at_most_one_transition (cfg : CoordinatorConfig)
    (now : Nat) (sched : List Nat) (db : CoordinatorDB)
    (invs : List (CollectCtx × Phase)) (h : String) :
    countTransitions h (scheduleTrace cfg now sched db invs) ≤ 1 :=
  countTransitions_le_one h _ (scheduleTrace_no_revive cfg now sched db invs h)

/-- C2 counterexample: two concurrent invocations both read batch `b1`
before either assigns; the second invocation's conditional update affects
zero rows, yet it still returns a task for the same unit `b1` — it neither
selects a different unit nor reports no work. -/
theorem collect_concurrent_race_counterexample :
    ¬ (doneTaskOf (runSchedule exCfg 7 [0, 1, 0, 1] exDb exInvs).2 0 = some "b1" →
        doneTaskOf (runSchedule exCfg 7 [0, 1, 0, 1] exDb exInvs).2 1 = none ∨
        doneTaskOf (runSchedule exCfg 7 [0, 1, 0, 1] exDb exInvs).2 1 ≠ some "b1") := by
  decide

/-- C3: `committedPack` is a pure function of the persisted batch rows and
block traces — two stores agreeing on those tables (and on the availability
of the two reads) produce identical calldata — and `commitInit` hands
exactly the calldata rebuilt by `committedPack` to the sender's idempotent
resume operation, for ids drawn from the *Committing* scan. -/
theorem committedPack_deterministic_recovery (db1 db2 : BridgeDB) (id : String)
    (hb : db1.blockBatches = db2.blockBatches)
    (ht : db1.blockTraces = db2.blockTraces)
    (hf1 : db1.failGetBlockBatches = db2.failGetBlockBatches)
    (hf2 : db1.failGetBlockTraces = db2.failGetBlockTraces) :
    committedPack db1 id = committedPack db2 id ∧
    (∀ call, commitInitStep db1 id = some call →
      call.data = (committedPack db1 id).2.1) ∧
    (∀ env ids m call, call ∈ (commitInitLoop env db1 ids m).1 →
      ∃ i, i ∈ ids ∧ commitInitStep db1 i = some call) := by
  have hpack : committedPack db1 id = committedPack db2 id := by
    unfold committedPack getBlockBatches getBlockTraces batchTraces
    rw [hb, ht, hf1, hf2]
  refine ⟨hpack, ?_, ?_⟩
  · intro call hcall
    unfold commitInitStep at hcall
    cases hg : getCommitTxHash db1 id with
    | none => rw [hg] at hcall; cases hcall
    | some txStr =>
      rw [hg] at hcall
      rcases hcp : committedPack db1 id with ⟨bO, dO, eO⟩
      rw [hcp] at hcall
      cases eO with
      | some e => cases hcall
      | none =>
        injection hcall with hcall
        rw [← hcall]
  · intro env ids
    induction ids with
    | nil =>
      intro m call hc
      simp [commitInitLoop] at hc
    | cons i ids ih =>
      intro m call hc
      unfold commitInitLoop at hc
      cases hstep : commitInitStep db1 i with
      | none =>
        rw [hstep] at hc
        obtain ⟨j, hj, hjs⟩ := ih m call hc
        exact ⟨j, List.mem_cons_of_mem i hj, hjs⟩
      | some c =>
        rw [hstep] at hc
        rcases List.mem_cons.mp hc with hcc | hcrest
        · exact ⟨i, List.mem_cons_self i ids, hcc ▸ hstep⟩
        · by_cases hfail : c.txID ∈ env.loadOrSendFailIDs
          · rw [if_pos hfail] at hcrest
            obtain ⟨j, hj, hjs⟩ := ih m call hcrest
            exact ⟨j, List.mem_cons_of_mem i hj, hjs⟩
          · rw [if_neg hfail] at hcrest
            obtain ⟨j, hj, hjs⟩ := ih _ call hcrest
            exact ⟨j, List.mem_cons_of_mem i hj, hjs⟩

/-- Witness for C3: two stores that differ only in a write-fault flag agree
on the persisted tables, so recovery rebuilds identical calldata. -/
theorem committedPack_deterministic_recovery_witness :
    committedPack exBridgeDbCommitting "B1" =
      committedPack { exBridgeDbCommitting with failUpdateCommitTxHash := true } "B1" ∧
    (∀ call, commitInitStep exBridgeDbCommitting "B1" = some call →
      call.data = (committedPack exBridgeDbCommitting "B1").2.1) ∧
    (∀ env ids m call, call ∈ (commitInitLoop env exBridgeDbCommitting ids m).1 →
      ∃ i, i ∈ ids ∧ commitInitStep exBridgeDbCommitting i = some call) :=
  committedPack_deterministic_recovery exBridgeDbCommitting
    { exBridgeDbCommitting with failUpdateCommitTxHash := true } "B1"
    rfl rfl rfl rfl

/-- C4: in the calldata built by `committedPack`, block 0's parent hash is
the batch's own parent hash, each later block's parent hash is the previous
block's computed hash, and each block's computed hash is the header hash of
the corresponding trace of the same batch, taken in ascending block-number
order. -/
theorem committedPack_parent_hash_chain (db : BridgeDB) (id : String)
    (batch : BlockBatch) (cd : Calldata)
    (h : committedPack db id = (some batch, some cd, none)) :
    cd.payload.blocks.length = (batchTraces db id).length ∧
    (∀ b0, cd.payload.blocks[0]? = some b0 →
      b0.parentHash = hexToHash batch.parentHash) ∧
    (∀ (i : Nat) (bi bj : L2BlockHeader), cd.payload.blocks[i]? = some bi →
      cd.payload.blocks[i + 1]? = some bj → bj.parentHash = bi.blockHash) ∧
    (∀ (i : Nat) (bi : L2BlockHeader) (ti : BlockTrace),
      cd.payload.blocks[i]? = some bi →
      (batchTraces db id)[i]? = some ti →
      bi.blockHash = headerHash ti.header) := by
  obtain ⟨hcd, -⟩ := committedPack_ok_shape db id batch cd h
  have hblocks : cd.payload.blocks =
      buildBlocks (hexToHash batch.parentHash) (batchTraces db id) := by
    rw [hcd]
    rfl
  rw [hblocks]
  refine ⟨buildBlocks_length _ _, ?_, ?_, ?_⟩
  · intro b0 h0
    exact buildBlocks_head_parent _ _ b0 h0
  · intro i bi bj hi hj
    exact buildBlocks_chain _ _ i bi bj hi hj
  · intro i bi ti hi hti
    exact buildBlocks_get_blockHash _ _ i bi hi ti hti

/-- Witness for C4 at a concrete batch with two traces. -/
theorem committedPack_parent_hash_chain_witness :
    committedPack exBridgeDb "B1" = (some exPendingBatch, some exCd, none) ∧
    (exCd.payload.blocks.length = (batchTraces exBridgeDb "B1").length ∧
      (∀ b0, exCd.payload.blocks[0]? = some b0 →
        b0.parentHash = hexToHash exPendingBatch.parentHash) ∧
      (∀ (i : Nat) (bi bj : L2BlockHeader), exCd.payload.blocks[i]? = some bi →
        exCd.payload.blocks[i + 1]? = some bj → bj.parentHash = bi.blockHash) ∧
      (∀ (i : Nat) (bi : L2BlockHeader) (ti : BlockTrace),
        exCd.payload.blocks[i]? = some bi →
        (batchTraces exBridgeDb "B1")[i]? = some ti →
        bi.blockHash = headerHash ti.header)) :=
  ⟨by decide,
    committedPack_parent_hash_chain exBridgeDb "B1" exPendingBatch exCd (by decide)⟩

/-- C5: a successful `formatProverTask` yields a payload whose `chunkInfos`
and `chunkProofs` have one entry per chunk in stored order; position `i`
holds the decoded proof of chunk `i` and a `ChunkInfo` carrying that chunk's
state roots, withdraw root and data hash with `isPadding = false`. -/
theorem formatProverTask_payload (cfg : CoordinatorConfig) (db : CoordinatorDB)
    (taskID : String) (chunks : List Chunk) (s : ProverTaskSchema)
    (hc : getChunksByBatchHash db taskID = some chunks)
    (hs : formatProverTask cfg db taskID = .ok s) :
    s.taskID = taskID ∧ s.proofType = 2 ∧
    s.proofData.chunkInfos.length = chunks.length ∧
    s.proofData.chunkProofs.length = chunks.length ∧
    (∀ i : Nat, s.proofData.chunkProofs[i]? =
      (chunks[i]?).bind (fun c => unmarshalChunkProof c.proof)) ∧
    (∀ i : Nat, s.proofData.chunkInfos[i]? =
      (chunks[i]?).map (fun c => mkChunkInfo cfg c)) ∧
    (∀ (i : Nat) (ci : ChunkInfo), s.proofData.chunkInfos[i]? = some ci →
      ci.isPadding = false) := by
  simp only [formatProverTask, hc] at hs
  cases hb : buildChunkData cfg chunks with
  | error e =>
    rw [hb] at hs
    cases hs
  | ok pr =>
    rcases pr with ⟨ps, infos⟩
    rw [hb] at hs
    injection hs with hs
    subst hs
    obtain ⟨l1, l2, hp, hi⟩ := buildChunkData_spec cfg chunks ps infos hb
    refine ⟨rfl, rfl, l2, l1, hp, hi, ?_⟩
    intro i ci hci
    rw [hi i] at hci
    cases hcc : chunks[i]? with
    | none =>
      rw [hcc] at hci
      cases hci
    | some c =>
      rw [hcc] at hci
      injection hci with hci
      rw [← hci]
      rfl

/-- Witness for C5: a batch with chunks `c1` (proof 11) and `c2` (proof 22)
yields matching two-element arrays in positional correspondence. -/
theorem formatProverTask_payload_witness :
    getChunksByBatchHash exDb "b1" = some [exChunk, exChunk2] ∧
    formatProverTask exCfg exDb "b1" = .ok exSchema ∧
    (exSchema.taskID = "b1" ∧ exSchema.proofType = 2 ∧
      exSchema.proofData.chunkInfos.length = [exChunk, exChunk2].length ∧
      exSchema.proofData.chunkProofs.length = [exChunk, exChunk2].length ∧
      (∀ i : Nat, exSchema.proofData.chunkProofs[i]? =
        ([exChunk, exChunk2][i]?).bind (fun c => unmarshalChunkProof c.proof)) ∧
      (∀ i : Nat, exSchema.proofData.chunkInfos[i]? =
        ([exChunk, exChunk2][i]?).map (fun c => mkChunkInfo exCfg c)) ∧
      (∀ (i : Nat) (ci : ChunkInfo), exSchema.proofData.chunkInfos[i]? = some ci →
        ci.isPadding = false)) :=
  ⟨by decide, by decide,
    formatProverTask_payload exCfg exDb "b1" [exChunk, exChunk2] exSchema
      (by decide) (by decide)⟩

/-- C6: when the attempt guard reports a selected batch no longer eligible,
`Collect` fails with the attempts-exceeded error before any assignment: no
batch moves *Unassigned* → *Assigned* and no ProverTask row is inserted in
that invocation. -/
theorem collect_attempts_exceeded_no_assignment (cfg : CoordinatorConfig)
    (ctx : CollectCtx) (now : Nat) (db : CoordinatorDB) (b : CoBatch)
    (hq : getUnassignedBatches db 1 = some [b])
    (hg : (checkAttemptsExceeded cfg db b.hash .batch).2 = false) :
    collect cfg ctx now db =
      ({ db with batches := setStatusWhere db.batches b.hash .unassigned .failed },
        .error (.attemptsExceeded b.hash)) ∧
    (collect cfg ctx now db).1.proverTasks = db.proverTasks ∧
    ∀ h, statusOf db.batches h = some .unassigned →
      statusOf (collect cfg ctx now db).1.batches h ≠ some .assigned := by
  have hcond : cfg.maxAttempts ≤ attemptCount db b.hash .batch := by
    by_contra hlt
    simp [checkAttemptsExceeded, hlt] at hg
  have hcoll : collect cfg ctx now db =
      ({ db with batches := setStatusWhere db.batches b.hash .unassigned .failed },
        .error (.attemptsExceeded b.hash)) := by
    simp [collect, hq, collectWithBatches, checkAttemptsExceeded, hcond]
  refine ⟨hcoll, by rw [hcoll], ?_⟩
  intro h hun
  rw [hcoll]
  simp only
  rw [statusOf_setStatusWhere]
  split
  · simp
  · simp [hun]

/-- Witness for C6: with a zero attempt budget, the selected batch's
collection fails with the attempts-exceeded error and performs no
assignment. -/
theorem collect_attempts_exceeded_witness :
    getUnassignedBatches exDb 1 = some [exBatch] ∧
    (checkAttemptsExceeded exCfgZero exDb exBatch.hash .batch).2 = false ∧
    (collect exCfgZero exCtx 7 exDb =
      ({ exDb with batches := setStatusWhere exDb.batches exBatch.hash .unassigned .failed },
        .error (.attemptsExceeded exBatch.hash)) ∧
      (collect exCfgZero exCtx 7 exDb).1.proverTasks = exDb.proverTasks ∧
      ∀ h, statusOf exDb.batches h = some .unassigned →
        statusOf (collect exCfgZero exCtx 7 exDb).1.batches h ≠ some .assigned) :=
  ⟨by decide, by decide,
    collect_attempts_exceeded_no_assignment exCfgZero exCtx 7 exDb exBatch
      (by decide) (by decide)⟩

/-- C7 (amended): when `SendTransaction` succeeds, `ProcessPendingBatches`
always registers the in-flight map entry; the store update to `commitTxHash`
and *Committing* takes effect only when the store update itself succeeds —
when it fails, the failure is merely logged and the map entry is registered
anyway, so the two effects are not atomic. -/
theorem processPendingBatches_send_success_effects (env : SenderEnv)
    (db : BridgeDB) (r : RelayerState) (id : String) (rest : List String)
    (txHash : String)
    (hp : getPendingBatches db 1 = some (id :: rest))
    (hcp : (committedPack db id).2.2 = none)
    (hsend : env.sendResult = .ok txHash) :
    ((id ++ "-commit", id) ∈
      (processPendingBatches env db r).2.processingCommitment) ∧
    (db.failUpdateCommitTxHash = false →
      (processPendingBatches env db r).1 =
        { db with blockBatches := db.blockBatches.map (fun b =>
            if b.id = id then
              { b with commitTxHash := some txHash, rollupStatus := .committing }
            else b) }) ∧
    (db.failUpdateCommitTxHash = true →
      (processPendingBatches env db r).1 = db) := by
  rcases hcp2 : committedPack db id with ⟨bO, dO, eO⟩
  rw [hcp2] at hcp
  simp at hcp
  subst hcp
  have hred : processPendingBatches env db r =
      (match updateCommitTxHashAndRollupStatus db id txHash .committing with
        | none => db
        | some dbU => dbU,
       { processingCommitment :=
          mapStore r.processingCommitment (id ++ "-commit") id }) := by
    simp only [processPendingBatches, hp, hcp2, hsend]
  rw [hred]
  refine ⟨?_, ?_, ?_⟩
  · simp [mapStore]
  · intro hflag
    simp [updateCommitTxHashAndRollupStatus, hflag]
  · intro hflag
    simp [updateCommitTxHashAndRollupStatus, hflag]

/-- Witness for the amended C7 at a concrete pending batch whose store
update succeeds. -/
theorem processPendingBatches_effects_witness :
    getPendingBatches exBridgeDb 1 = some ["B1"] ∧
    (committedPack exBridgeDb "B1").2.2 = none ∧
    exEnv.sendResult = .ok "0xh" ∧
    ((("B1" ++ "-commit", "B1") ∈
        (processPendingBatches exEnv exBridgeDb ⟨[]⟩).2.processingCommitment) ∧
      (exBridgeDb.failUpdateCommitTxHash = false →
        (processPendingBatches exEnv exBridgeDb ⟨[]⟩).1 =
          { exBridgeDb with blockBatches := exBridgeDb.blockBatches.map (fun b =>
              if b.id = "B1" then
                { b with commitTxHash := some "0xh", rollupStatus := .committing }
              else b) }) ∧
      (exBridgeDb.failUpdateCommitTxHash = true →
        (processPendingBatches exEnv exBridgeDb ⟨[]⟩).1 = exBridgeDb)) :=
  ⟨by decide, by decide, rfl,
    processPendingBatches_send_success_effects exEnv exBridgeDb ⟨[]⟩ "B1" [] "0xh"
      (by decide) (by decide) rfl⟩

/-- C7 counterexample: with a failing store update, the successful send
registers the map entry while the batch row keeps its old status and null
commit hash — the two effects do not take effect together. -/
theorem processPendingBatches_not_atomic_counterexample :
    ¬ ((("B1-commit", "B1") ∈
        (processPendingBatches exEnv exBridgeDbFailUpdate ⟨[]⟩).2.processingCommitment) ↔
      ((processPendingBatches exEnv exBridgeDbFailUpdate ⟨[]⟩).1.blockBatches.find?
          (fun b => decide (b.id = "B1"))).map
        (fun b => (b.commitTxHash, b.rollupStatus)) =
        some (some "0xh", .committing)) := by
  decide

/-- C8: contrary to the claim, neither empty-input case reports an error —
`committedPack` on a batch with zero block traces returns nil batch, nil
data and a nil error, and `formatProverTask` on a batch with zero chunks
silently succeeds with empty arrays. -/
theorem empty_inputs_silently_succeed :
    committedPack exBridgeDbNoTraces "B1" = (none, none, none) ∧
    formatProverTask exCfg exDbNoChunks "b1" =
      .ok { taskID := "b1", proofType := 2,
            proofData := { chunkInfos := [], chunkProofs := [] } } := by
  exact ⟨by decide, by decide⟩

/-- C9: when the assignment transaction has committed and the subsequent
payload formatting fails, `Collect` returns an error but the assignment
stands: the batch remains *Assigned* and its ProverTask row remains in
place. -/
theorem collect_format_failure_keeps_assignment (cfg : CoordinatorConfig)
    (ctx : CollectCtx) (now : Nat) (db : CoordinatorDB) (b : CoBatch)
    (pk pn : String) (e : FormatErr)
    (hnd : (db.batches.map (fun x => x.hash)).Nodup)
    (hq : getUnassignedBatches db 1 = some [b])
    (hg : ¬ cfg.maxAttempts ≤ attemptCount db b.hash .batch)
    (hpk : ctx.publicKey = some pk) (hpn : ctx.proverName = some pn)
    (hf1 : db.failUpdateProvingStatus = false)
    (hf2 : db.failSetProverTask = false)
    (hfmt : formatProverTask cfg (assignedState db b pk pn now) b.hash =
      .error e) :
    collect cfg ctx now db =
      (assignedState db b pk pn now, .error (.formatFailed b.hash e)) ∧
    statusOf (assignedState db b pk pn now).batches b.hash = some .assigned ∧
    mkProverTask b.hash pk pn now ∈
      (assignedState db b pk pn now).proverTasks := by
  have hpre : statusOf db.batches b.hash = some .unassigned := by
    have hm := mem_of_getUnassigned db b [b] hq (List.mem_singleton.mpr rfl)
    have hs := statusOf_of_mem_nodup db b hnd hm.1
    rw [hm.2] at hs
    exact hs
  refine ⟨?_, ?_, ?_⟩
  · simp [collect, hq, collectWithBatches, checkAttemptsExceeded, hg, hpk, hpn,
      collectAssignAndFormat, dbTransaction, updateProvingStatus, setProverTask,
      hf1, hf2]
    simp [assignedState, hf1, hf2] at hfmt
    simp [hfmt, assignedState, hf1, hf2]
  · show statusOf (setStatusWhere db.batches b.hash .unassigned .assigned) b.hash
      = some .assigned
    rw [statusOf_setStatusWhere]
    simp [hpre]
  · simp [assignedState]

/-- Witness for C9: the single chunk's proof blob fails to decode after a
committed assignment. -/
theorem collect_format_failure_witness :
    collect exCfg exCtx 7 exDbBadProof =
      (assignedState exDbBadProof exBatch "pkA" "alice" 7,
        .error (.formatFailed exBatch.hash (.unmarshalProofFailed "c1"))) ∧
    statusOf (assignedState exDbBadProof exBatch "pkA" "alice" 7).batches
      exBatch.hash = some .assigned ∧
    mkProverTask exBatch.hash "pkA" "alice" 7 ∈
      (assignedState exDbBadProof exBatch "pkA" "alice" 7).proverTasks :=
  collect_format_failure_keeps_assignment exCfg exCtx 7 exDbBadProof exBatch
    "pkA" "alice" (.unmarshalProofFailed "c1") (by decide) (by decide)
    (by decide) (by decide) (by decide) (by decide) (by decide) (by decide)

/-- C10: when the store hands back two or more rows despite the limit of
one, `Collect` errors out and performs no assignment: the store is returned
unchanged. -/
theorem collect_multi_row_no_assignment (cfg : CoordinatorConfig)
    (ctx : CollectCtx) (now : Nat) (db : CoordinatorDB) (bs : List CoBatch)
    (h2 : 2 ≤ bs.length) :
    collectWithBatches cfg ctx now db bs = (db, .error .lenNot1) := by
  match bs, h2 with
  | b :: c :: rest, _ => simp [collectWithBatches]

/-- Witness for C10 with two returned rows. -/
theorem collect_multi_row_witness :
    2 ≤ ([exBatch, exBatchB] : List CoBatch).length ∧
    collectWithBatches exCfg exCtx 7 exDb [exBatch, exBatchB] =
      (exDb, .error .lenNot1) :=
  ⟨by decide, collect_multi_row_no_assignment exCfg exCtx 7 exDb
    [exBatch, exBatchB] (by decide)⟩

end Scroll
